import Mathlib

/-!
Verification of the `lxf` repository (src/www/orm.py and src/www/lxfweb.py):
a shallow embedding of the ORM's metaclass-driven schema derivation, SQL
template rendering, CRUD argument gathering, and of the web layer's
reflective parameter binding, with theorems settling the spec's claims.

Python values that the claims touch are modelled by `PyVal` (the Python
`None` is `PyVal.vNone`); a `Model` instance (a Python dict) is an ordered
association list; Python dict assignment is `dictSet` (update in place
when the key exists, append otherwise).
-/

/-- Python values occurring as field values and SQL arguments.
`vNone` is Python's `None`. -/
inductive PyVal where
  | vNone
  | vInt (n : Int)
  | vStr (s : String)
  | vBool (b : Bool)
deriving DecidableEq

/-- Python dict assignment `d[k] = v`: overwrite in place when the key is
present, append otherwise. -/
def dictSet {α : Type} (d : List (String × α)) (k : String) (v : α) : List (String × α) :=
  if (d.lookup k).isSome then d.map (fun p => if p.1 = k then (k, v) else p)
  else d ++ [(k, v)]

/-- Python `x or y` for `x` an optional string: `None` and the empty
string are falsy (orm.py lines 109 and 141). -/
def pyOrS (o : Option String) (b : String) : String :=
  match o with
  | none => b
  | some s => if s = "" then b else s

/-- Python `sep.join(...)`-style joining as the source performs it
(orm.py lines 62, 139-141, 198). -/
def strJoin (sep : String) : List String → String
  | [] => ""
  | [x] => x
  | x :: y :: xs => x ++ sep ++ strJoin sep (y :: xs)

/-- Number of `?` placeholder markers in a SQL string. -/
def countQ (s : String) : Nat := s.data.count '?'

namespace orm

/-- A declared `Field` default: either a constant or a zero-argument
callable invoked at use time (orm.py line 167:
`field.default() if callable(field.default) else field.default`). -/
inductive FieldDefault where
  | const (v : PyVal)
  | func (f : Unit → PyVal)

/-- Evaluates a default: calls it when it is callable, otherwise returns
the constant (orm.py line 167). -/
def evalDefault : FieldDefault → PyVal
  | .const v => v
  | .func f => f ()

/-- `Field` from orm.py lines 64-70: an explicit column name (Python
`None` or a string), a column type, the primary-key flag and a default
(`none` models a Python default of `None`). -/
structure Field where
  name : Option String
  column_type : String
  primary_key : Bool
  default : Option FieldDefault

/-- `create_args_string` from orm.py lines 58-62: `num` placeholder
markers joined by `', '`. -/
def create_args_string (num : Nat) : String :=
  strJoin ", " (List.replicate num "?")

/-- A record instance: the Python dict underlying a `Model` object,
as an ordered association list. -/
abbrev Record := List (String × PyVal)

/-- `mappings[f]` lookup; in the source every looked-up key is present, so
the dummy value is never observed under that hypothesis. -/
def lookupField (mappings : List (String × Field)) (f : String) : Field :=
  (mappings.lookup f).getD ⟨none, "", false, none⟩

/-- Backtick-escaping of a column name, orm.py line 130:
`'\x60%s\x60' % f`. -/
def escField (f : String) : String := "`" ++ f ++ "`"

/-- The per-field fragment of the update template, orm.py line 141:
`'\x60%s\x60=?' % (mappings.get(f).name or f)`. -/
def updFrag (mappings : List (String × Field)) (f : String) : String :=
  "`" ++ pyOrS (lookupField mappings f).name f ++ "`=?"

/-- The derived schema a model class carries after `ModelMetaclass.__new__`
(orm.py lines 134-142): table name, field mapping, primary key, ordered
non-key field names, and the four pre-rendered SQL templates. -/
structure Schema where
  tableName : String
  mappings : List (String × Field)
  primaryKey : String
  fields : List String
  selectSql : String
  insertSql : String
  updateSql : String
  deleteSql : String

/-- Renders the schema exactly as orm.py lines 130 and 134-142 do. -/
def mkSchema (tableName : String) (mappings : List (String × Field))
    (fields : List String) (primaryKey : String) : Schema :=
  let escaped_fields := fields.map escField
  { tableName := tableName
    mappings := mappings
    primaryKey := primaryKey
    fields := fields
    selectSql := "select `" ++ primaryKey ++ "`, " ++ strJoin ", " escaped_fields
      ++ " from `" ++ tableName ++ "`"
    insertSql := "insert into `" ++ tableName ++ "` (" ++ strJoin ", " escaped_fields
      ++ ", `" ++ primaryKey ++ "`) values (" ++ create_args_string (escaped_fields.length + 1) ++ ")"
    updateSql := "update `" ++ tableName ++ "` set "
      ++ strJoin ", " (fields.map (updFrag mappings))
      ++ " where `" ++ primaryKey ++ "`=?"
    deleteSql := "delete from `" ++ tableName ++ "` where `" ++ primaryKey ++ "`=?" }

/-- The scanning loop of `ModelMetaclass.__new__` (orm.py lines 115-125):
walks the declared `Field` attributes in declaration order, accumulating
the mapping, the non-key field names and the primary key.  `primaryKey`
starts as Python `None`; `if primaryKey:` is Python truthiness (`none` and
the empty string are falsy).  A second primary key raises (in the source
the `raise StandardError(...)` statement itself fails with a `NameError`
under Python 3 since `StandardError` is undefined, but class creation
fails with an exception either way, which `.error` models). -/
def scanLoop (attrs : List (String × Field)) (mappings : List (String × Field))
    (fields : List String) (primaryKey : Option String) :
    Except String (List (String × Field) × List String × Option String) :=
  match attrs with
  | [] => .ok (mappings, fields, primaryKey)
  | (k, v) :: rest =>
    if v.primary_key then
      if pyOrS primaryKey "" ≠ "" then
        .error ("Duplicate primary key for field: " ++ k)
      else scanLoop rest (mappings ++ [(k, v)]) fields (some k)
    else scanLoop rest (mappings ++ [(k, v)]) (fields ++ [k]) primaryKey

/-- Result of `ModelMetaclass.__new__`: the base `Model` class is passed
through untouched (orm.py lines 106-107); every other class gets a derived
schema. -/
inductive MetaResult where
  | base
  | schema (s : Schema)

/-- `ModelMetaclass.__new__` (orm.py lines 102-143) over the class name,
the optional `__table__` attribute and the declared `Field` attributes in
declaration order.  `if not primaryKey:` (line 126) is Python truthiness:
`None` and the empty string both fail. -/
def modelMeta (name : String) (table : Option String)
    (attrs : List (String × Field)) : Except String MetaResult :=
  if name = "Model" then .ok .base
  else
    let tableName := pyOrS table name
    match scanLoop attrs [] [] none with
    | .error e => .error e
    | .ok (mappings, fields, primaryKey) =>
      match primaryKey with
      | none => .error "Primary key not found."
      | some k =>
        if k = "" then .error "Primary key not found."
        else .ok (.schema (mkSchema tableName mappings fields k))

/-- `Model.getValue` (orm.py lines 159-160): `getattr(self, key, None)`;
via `__getattr__` this is `self[key]` when present, else `None`.  A stored
`None` and an absent key are indistinguishable to the callers modelled
here, so both are `vNone`. -/
def getValue (rec : Record) (key : String) : PyVal :=
  (rec.lookup key).getD .vNone

/-- `Model.getValueOrDefault` (orm.py lines 162-170): when the current
value is `None`, substitute the field's default (calling it when it is
callable) and store it back with `setattr`; returns the value and the
possibly-updated record. -/
def getValueOrDefault (mappings : List (String × Field)) (rec : Record)
    (key : String) : PyVal × Record :=
  match getValue rec key with
  | .vNone =>
    match (lookupField mappings key).default with
    | some d =>
      let v := evalDefault d
      (v, dictSet rec key v)
    | none => (.vNone, rec)
  | v => (v, rec)

/-- The argument gathering of `Model.save` over the non-key fields
(orm.py line 225): `list(map(self.getValueOrDefault, self.__fields__))`,
threading the `setattr` updates through the record. -/
def saveArgsAux (mappings : List (String × Field)) (fields : List String)
    (rec : Record) : List PyVal × Record :=
  match fields with
  | [] => ([], rec)
  | f :: fs =>
    let r1 := getValueOrDefault mappings rec f
    let r2 := saveArgsAux mappings fs r1.2
    (r1.1 :: r2.1, r2.2)

/-- The full insert-argument list of `Model.save` (orm.py lines 225-226):
non-key field values with defaults substituted, then the primary key. -/
def saveArgs (s : Schema) (rec : Record) : List PyVal :=
  let r := saveArgsAux s.mappings s.fields rec
  r.1 ++ [(getValueOrDefault s.mappings r.2 s.primaryKey).1]

/-- The update-argument list of `Model.update` (orm.py lines 233-234):
current values via `getValue`, with no default substitution. -/
def updateArgs (s : Schema) (rec : Record) : List PyVal :=
  s.fields.map (getValue rec) ++ [getValue rec s.primaryKey]

/-- What a `save`/`update`/`remove` call did: which statement and
arguments it passed to `execute`, and whether the affected-row check
logged a warning.  The operations return `None` and never raise on a
row-count mismatch, which is reflected by this being a plain (total)
result type with no error channel. -/
structure OpOutcome where
  executedSql : String
  executedArgs : List PyVal
  warned : Bool

/-- `Model.save` (orm.py lines 223-229); `execute` is the external query
executor, returning the affected-row count. -/
def Model.save (s : Schema) (rec : Record)
    (execute : String → List PyVal → Int) : OpOutcome :=
  let args := saveArgs s rec
  let rows := execute s.insertSql args
  ⟨s.insertSql, args, rows != 1⟩

/-- `Model.update` (orm.py lines 231-237). -/
def Model.update (s : Schema) (rec : Record)
    (execute : String → List PyVal → Int) : OpOutcome :=
  let args := updateArgs s rec
  let rows := execute s.updateSql args
  ⟨s.updateSql, args, rows != 1⟩

/-- `Model.remove` (orm.py lines 239-244). -/
def Model.remove (s : Schema) (rec : Record)
    (execute : String → List PyVal → Int) : OpOutcome :=
  let args := [getValue rec s.primaryKey]
  let rows := execute s.deleteSql args
  ⟨s.deleteSql, args, rows != 1⟩

/-- Python truthiness of an optional string (`if where:`, `if orderBy:`
at orm.py lines 178 and 184): `None` and the empty string are falsy. -/
def pyTruthyS (o : Option String) : Bool :=
  match o with
  | none => false
  | some s => !(s == "")

/-- The shapes a non-`None` `limit` keyword argument can take in
`Model.findAll` (orm.py lines 187-197): a Python `int`, a tuple of ints,
or a value of any other type such as a string. -/
inductive LimitV where
  | int (n : Int)
  | tup (l : List Int)
  | str (s : String)

/-- Python `str(...)` of a limit value, as interpolated into the
`ValueError` message at orm.py line 197. -/
def limitStr : LimitV → String
  | .int n => toString n
  | .str s => s
  | .tup [x] => "(" ++ toString x ++ ",)"
  | .tup l => "(" ++ strJoin ", " (l.map toString) ++ ")"

/-- The word list `Model.findAll` assembles before the `limit` handling
(orm.py lines 177-186): select template, then the optional `where` and
`order by` clauses, each guarded by Python truthiness of its argument. -/
def findAllBase (sel : String) (w : Option String) (orderBy : Option String) :
    List String :=
  let sql0 := [sel]
  let sql1 := if pyTruthyS w then sql0 ++ ["where", w.getD ""] else sql0
  if pyTruthyS orderBy then sql1 ++ ["order by", orderBy.getD ""] else sql1

/-- The query-building part of `Model.findAll` (orm.py lines 175-198):
the clause word list plus `limit` handling, and the argument list handed
to `select` (a `None` args list becomes `[]`, line 181-182).  An `.error`
result models the `ValueError` raised at line 197 before any query is
issued; `.ok` carries the `' '.join(sql)` string and the args. -/
def findAll (sel : String) (w : Option String) (args : Option (List PyVal))
    (orderBy : Option String) (limit : Option LimitV) :
    Except String (String × List PyVal) :=
  let sql2 := findAllBase sel w orderBy
  let args0 := args.getD []
  match limit with
  | none => .ok (strJoin " " sql2, args0)
  | some lv =>
    let sql3 := sql2 ++ ["limit"]
    match lv with
    | .int n => .ok (strJoin " " (sql3 ++ ["?"]), args0 ++ [PyVal.vInt n])
    | .tup l =>
      if l.length = 2 then
        .ok (strJoin " " (sql3 ++ ["?, ?"]), args0 ++ l.map PyVal.vInt)
      else .error ("Invalid limit value: " ++ limitStr (.tup l))
    | .str s => .error ("Invalid limit value: " ++ limitStr (.str s))

/-- What one `select` call did (orm.py lines 30-43): the SQL string handed
to the driver after placeholder translation, the arguments, the rows
fetched, and that the pooled connection was given back (the `with` block
releases it on exit). -/
structure SelectResult (α : Type) where
  executedSql : String
  executedArgs : List PyVal
  rows : List α
  connReleased : Bool

/-- `select` (orm.py lines 30-43).  `db` models the full row sequence the
query yields on the cursor; `fetchmany(n)` returns its first
`min n db.length` rows and `fetchall()` all of them.  `if size:` is Python
truthiness, so `size = 0` behaves like an absent size.  `args or ()`
turns a `None` argument list into the empty tuple. -/
def select {α : Type} (db : List α) (sql : String) (args : Option (List PyVal))
    (size : Option Nat) : SelectResult α :=
  { executedSql := sql.replace "?" "%s"
    executedArgs := args.getD []
    rows :=
      match size with
      | some n => if n ≠ 0 then db.take n else db
      | none => db
    connReleased := true }

/-- A concrete primary-key field, as `IntegerField(primary_key=True)`
builds it (orm.py lines 85-88): column type `bigint`, default `0`. -/
def exId : Field := ⟨none, "bigint", true, some (.const (.vInt 0))⟩

/-- A concrete non-key field, as `StringField()` builds it (orm.py lines
75-78): column type `varchar(100)`, no default. -/
def exA : Field := ⟨none, "varchar(100)", false, none⟩

/-- A non-key field with an explicit column name differing from its
attribute name, as `StringField(name='mail')` builds it. -/
def exMail : Field := ⟨some "mail", "varchar(100)", false, none⟩

/-- A non-key field whose default is a zero-argument callable. -/
def exGen : Field := ⟨none, "varchar(100)", false, some (.func fun _ => .vStr "gen")⟩

/-- Declared attributes of a concrete model class `User` with primary key
`id` and non-key fields `a`, `b` in declaration order. -/
def exAttrs : List (String × Field) := [("id", exId), ("a", exA), ("b", exA)]

/-- The schema the metaclass derives for `exAttrs`. -/
def exSchema : Schema :=
  match modelMeta "User" none exAttrs with
  | .ok (.schema s) => s
  | _ => mkSchema "" [] [] ""

/-- Attributes declaring no primary key. -/
def exNoPk : List (String × Field) := [("a", exA)]

/-- Attributes declaring two primary keys. -/
def exTwoPk : List (String × Field) := [("id", exId), ("uid", exId), ("a", exA)]

/-- Attributes of a model whose `email` attribute carries the explicit
column name `mail`, and whose `gen` attribute has a callable default. -/
def exAttrs2 : List (String × Field) :=
  [("id", exId), ("email", exMail), ("gen", exGen)]

/-- The schema the metaclass derives for `exAttrs2`. -/
def exSchema2 : Schema :=
  match modelMeta "Person" none exAttrs2 with
  | .ok (.schema s) => s
  | _ => mkSchema "" [] [] ""

/-- A concrete record for `exSchema2` whose `gen` field is unset. -/
def exRec : Record := [("email", .vStr "e@x"), ("id", .vInt 7)]

end orm

namespace lxfweb

/-- The parameter kinds of `inspect.Parameter` used by lxfweb.py. -/
inductive PKind where
  | positionalOnly
  | positionalOrKeyword
  | varPositional
  | keywordOnly
  | varKeyword
deriving DecidableEq

/-- One parameter of a handler's signature: its name, kind, and whether a
default is declared (`param.default == inspect.Parameter.empty` is the
absence of a default). -/
structure Param where
  name : String
  kind : PKind
  hasDefault : Bool
deriving DecidableEq

/-- `get_required_kw_args` (lxfweb.py lines 36-42): names of keyword-only
parameters without a default, in signature order. -/
def get_required_kw_args (ps : List Param) : List String :=
  ps.filterMap fun p =>
    if p.kind = .keywordOnly ∧ ¬p.hasDefault then some p.name else none

/-- `get_named_kw_args` (lxfweb.py lines 44-50): names of all keyword-only
parameters, in signature order. -/
def get_named_kw_args (ps : List Param) : List String :=
  ps.filterMap fun p => if p.kind = .keywordOnly then some p.name else none

/-- `has_named_kw_args` (lxfweb.py lines 52-56); the Python function
returns `True` or (implicitly) `None`, whose truthiness this `Bool`
captures. -/
def has_named_kw_args (ps : List Param) : Bool :=
  ps.any fun p => p.kind == .keywordOnly

/-- `has_var_kw_arg` (lxfweb.py lines 58-62). -/
def has_var_kw_arg (ps : List Param) : Bool :=
  ps.any fun p => p.kind == .varKeyword

/-- The loop of `has_request_arg` (lxfweb.py lines 64-74): once a
parameter named `request` has been seen, any later parameter that is not
variadic-positional, keyword-only or variadic-keyword raises a
`ValueError` (in the source the message also interpolates the function
name and signature). -/
def hasRequestLoop (ps : List Param) (found : Bool) : Except String Bool :=
  match ps with
  | [] => .ok found
  | p :: rest =>
    if p.name = "request" then hasRequestLoop rest true
    else if found ∧ p.kind ≠ .varPositional ∧ p.kind ≠ .keywordOnly
        ∧ p.kind ≠ .varKeyword then
      .error "request parameter must be the last named parameter in function"
    else hasRequestLoop rest found

/-- `has_request_arg` (lxfweb.py lines 64-74). -/
def has_request_arg (ps : List Param) : Except String Bool :=
  hasRequestLoop ps false

/-- The reflective facts `RequestHandler.__init__` derives from a handler
function once, at registration (lxfweb.py lines 78-85). -/
structure RequestHandler where
  has_request_arg : Bool
  has_var_kw_arg : Bool
  has_named_kw_args : Bool
  named_kw_args : List String
  required_kw_args : List String

/-- `RequestHandler.__init__` (lxfweb.py lines 78-85); the
`has_request_arg` inspection can raise, which aborts registration. -/
def RequestHandler.init (ps : List Param) : Except String RequestHandler :=
  match hasRequestLoop ps false with
  | .error e => .error e
  | .ok hra =>
    .ok ⟨hra, lxfweb.has_var_kw_arg ps, lxfweb.has_named_kw_args ps,
      get_named_kw_args ps, get_required_kw_args ps⟩

/-- The decoded JSON body of a request (`request.json()` is the external
decoder): either an object with string values, or any non-object value. -/
inductive JsonBody where
  | jobj (fields : List (String × String))
  | jother

/-- The parts of an incoming request that `RequestHandler.__call__`
consults.  `queryParsed` is the association list produced by the external
`urllib.parse.parse_qs(qs, True)` on `queryString` (each key mapped to its
non-empty list of values); `postBody` is the flat mapping the external
`request.post()` yields for url-encoded or multipart bodies; `matchInfo`
holds the path-matched parameters. -/
structure Request where
  method : String
  contentType : String
  jsonBody : JsonBody
  postBody : List (String × String)
  queryString : String
  queryParsed : List (String × List String)
  matchInfo : List (String × String)

/-- A value bound to a handler keyword: a string extracted from the
request data, or the raw request object injected under `request`. -/
inductive Val where
  | str (s : String)
  | req
deriving DecidableEq

/-- The keyword mapping assembled for a handler call. -/
abbrev Kw := List (String × Val)

/-- Python `str.lower()` as applied to the content type. -/
def pyLower (s : String) : String := ⟨s.data.map Char.toLower⟩

/-- Python `str.startswith(pat)`. -/
def pyStartswith (s pat : String) : Bool := pat.data.isPrefixOf s.data

/-- The first-value-per-key keyword mapping a GET query string yields
(lxfweb.py lines 108-110: `kw[k] = v[0]` over the parsed query). -/
def queryKw (r : Request) : Kw :=
  r.queryParsed.map fun p => (p.1, Val.str (p.2.headD ""))

/-- The named-keyword filtering step (lxfweb.py lines 114-120): keep, in
declared order, exactly the named keyword-only names present in `kw0`. -/
def namedFilter (names : List String) (kw0 : Kw) : Kw :=
  names.filterMap fun n => (kw0.lookup n).map fun v => (n, v)

/-- The path-parameter merge (lxfweb.py lines 122-125): each path-matched
pair is assigned into the mapping, overwriting same-named keys. -/
def mergeMatchInfo (mi : List (String × String)) (kw : Kw) : Kw :=
  mi.foldl (fun d p => dictSet d p.1 (Val.str p.2)) kw

/-- The body/query extraction phase of `RequestHandler.__call__`
(lxfweb.py lines 89-110): when the handler needs keyword arguments, a
POST body is decoded according to its content type (errors model the
`HTTPBadRequest` returns) and a GET request with a non-empty query string
is parsed into first-value-per-key pairs; otherwise `kw` stays `None`. -/
def gatherKw (h : RequestHandler) (r : Request) : Except String (Option Kw) :=
  if h.has_var_kw_arg || h.has_named_kw_args || !h.required_kw_args.isEmpty then
    if r.method = "POST" then
      if r.contentType = "" then .error "Missing Content-Type."
      else
        let ct := pyLower r.contentType
        if pyStartswith ct "application/json" then
          match r.jsonBody with
          | .jobj fields => .ok (some (fields.map fun p => (p.1, Val.str p.2)))
          | .jother => .error "JSON body must be object."
        else if pyStartswith ct "application/x-www-form-urlencoded"
            || pyStartswith ct "multipart/form-data" then
          .ok (some (r.postBody.map fun p => (p.1, Val.str p.2)))
        else .error ("Unsupported Content-Type: " ++ r.contentType)
    else if r.method = "GET" then
      if r.queryString ≠ "" then .ok (some (queryKw r))
      else .ok none
    else .ok none
  else .ok none

/-- The outcome of a dispatched call: a 400-class response, or the handler
invoked with the assembled keyword mapping. -/
inductive Outcome where
  | badRequest (msg : String)
  | invoke (kw : Kw)
deriving DecidableEq

/-- The tail of `RequestHandler.__call__` (lxfweb.py lines 111-135): fall
back to path parameters when no keyword mapping was produced; otherwise
drop keys outside the named keyword-only set (when there is no
variadic-keyword), merge path parameters last (overwriting), inject the
raw request when the handler declares a `request` parameter, and reject
when a required keyword-only name is missing. -/
def finishKw (h : RequestHandler) (r : Request) (kwOpt : Option Kw) : Outcome :=
  let kw :=
    match kwOpt with
    | none => r.matchInfo.map fun p => (p.1, Val.str p.2)
    | some kw0 =>
      let kw1 :=
        if !h.has_var_kw_arg && !h.named_kw_args.isEmpty then
          namedFilter h.named_kw_args kw0
        else kw0
      mergeMatchInfo r.matchInfo kw1
  let kw2 := if h.has_request_arg then dictSet kw "request" Val.req else kw
  match h.required_kw_args.find? (fun n => (kw2.lookup n).isNone) with
  | some n => .badRequest ("Missing argument: " ++ n)
  | none => .invoke kw2

/-- `RequestHandler.__call__` (lxfweb.py lines 87-138): extraction phase
then assembly phase. -/
def handle (h : RequestHandler) (r : Request) : Outcome :=
  match gatherKw h r with
  | .error msg => .badRequest msg
  | .ok kwOpt => finishKw h r kwOpt

/-- A concrete registered handler descriptor: named keyword-only
parameters `name`, `email`, no variadic-keyword, no `request` parameter,
no required keyword-only parameter. -/
def exHandler : RequestHandler := ⟨false, false, true, ["name", "email"], []⟩

/-- A concrete POST request with the given content type and JSON body,
whose form body parses to `name=Bob`. -/
def exPost (ct : String) (jb : JsonBody) : Request :=
  ⟨"POST", ct, jb, [("name", "Bob")], "", [], []⟩

/-- A concrete GET request with query string `name=Bob&age=30` (parsed by
`parse_qs` to its association list) and no path parameters. -/
def exGet : Request :=
  ⟨"GET", "", .jother, [], "name=Bob&age=30",
    [("name", ["Bob"]), ("age", ["30"])], []⟩

end lxfweb

-- Basic string-counting lemmas.

theorem countQ_append (a b : String) : countQ (a ++ b) = countQ a + countQ b := by
  simp [countQ, String.data_append, List.count_append]

theorem countQ_strJoin_zero (sep : String) (l : List String)
    (hsep : countQ sep = 0) (h : ∀ x ∈ l, countQ x = 0) :
    countQ (strJoin sep l) = 0 := by
  induction l with
  | nil => simp [strJoin, countQ]
  | cons x xs ih =>
    cases xs with
    | nil => simpa [strJoin] using h x (by simp)
    | cons y ys =>
      have hx := h x (by simp)
      have hrest : ∀ z ∈ y :: ys, countQ z = 0 := by
        intro z hz; exact h z (by simp [hz])
      simp only [strJoin, countQ_append]
      rw [hx, hsep, ih hrest]

theorem countQ_create_args_string (n : Nat) :
    countQ (orm.create_args_string n) = n := by
  induction n with
  | zero => decide
  | succ m ih =>
    cases m with
    | zero => decide
    | succ m2 =>
      have h1 : countQ "?" = 1 := by decide
      have h2 : countQ ", " = 0 := by decide
      simp only [orm.create_args_string, List.replicate] at ih ⊢
      simp only [strJoin, countQ_append] at ih ⊢
      omega

theorem strJoin_append_singleton (sep x : String) :
    ∀ l : List String, l ≠ [] → strJoin sep (l ++ [x]) = strJoin sep l ++ sep ++ x
  | [], h => absurd rfl h
  | [a], _ => by simp [strJoin]
  | a :: b :: bs, _ => by
    have ih := strJoin_append_singleton sep x (b :: bs) (by simp)
    simp only [List.cons_append] at ih ⊢
    show a ++ sep ++ strJoin sep (b :: (bs ++ [x]))
      = (a ++ sep ++ strJoin sep (b :: bs)) ++ sep ++ x
    rw [ih]
    simp [String.append_assoc]

namespace orm

theorem scanLoop_some_clean (attrs : List (String × Field)) (k0 : String)
    (hk : k0 ≠ "") (h : attrs.filter (fun p => p.2.primary_key) = []) :
    ∀ m fs, scanLoop attrs m fs (some k0) =
      .ok (m ++ attrs, fs ++ (attrs.filter (fun p => !p.2.primary_key)).map Prod.fst,
        some k0) := by
  induction attrs with
  | nil => intro m fs; simp [scanLoop]
  | cons a rest ih =>
    intro m fs
    obtain ⟨ka, va⟩ := a
    by_cases hv : va.primary_key
    · simp [List.filter_cons, hv] at h
    · simp only [List.filter_cons, hv] at h
      simp only [scanLoop, hv, if_false, Bool.false_eq_true, if_neg]
      rw [ih h]
      simp [List.filter_cons, hv, List.append_assoc]

theorem scanLoop_some_dup (attrs : List (String × Field)) (k0 : String)
    (hk : k0 ≠ "") (k : String) (v : Field) (t : List (String × Field))
    (h : attrs.filter (fun p => p.2.primary_key) = (k, v) :: t) :
    ∀ m fs, scanLoop attrs m fs (some k0) =
      .error ("Duplicate primary key for field: " ++ k) := by
  induction attrs with
  | nil => simp at h
  | cons a rest ih =>
    intro m fs
    obtain ⟨ka, va⟩ := a
    by_cases hv : va.primary_key
    · simp only [List.filter_cons, hv, if_pos, if_true] at h
      obtain ⟨h1, _⟩ := List.cons.inj h
      obtain ⟨hka, _⟩ := Prod.mk.injEq .. ▸ h1
      simp only [scanLoop, hv, if_pos, pyOrS, hk, if_neg]
      simp only [Prod.mk.injEq] at h1
      simp [pyOrS, hk, h1.1]
    · simp only [List.filter_cons, hv] at h
      simp only [scanLoop, hv, Bool.false_eq_true, if_neg, if_false]
      exact ih h (m ++ [(ka, va)]) (fs ++ [ka])

theorem scanLoop_none_clean (attrs : List (String × Field))
    (h : attrs.filter (fun p => p.2.primary_key) = []) :
    ∀ m fs, scanLoop attrs m fs none =
      .ok (m ++ attrs, fs ++ (attrs.filter (fun p => !p.2.primary_key)).map Prod.fst,
        none) := by
  induction attrs with
  | nil => intro m fs; simp [scanLoop]
  | cons a rest ih =>
    intro m fs
    obtain ⟨ka, va⟩ := a
    by_cases hv : va.primary_key
    · simp [List.filter_cons, hv] at h
    · simp only [List.filter_cons, hv] at h
      simp only [scanLoop, hv, Bool.false_eq_true, if_neg, if_false]
      rw [ih h]
      simp [List.filter_cons, hv, List.append_assoc]

theorem scanLoop_none_one (attrs : List (String × Field)) (k : String) (v : Field)
    (hk : k ≠ "") (h : attrs.filter (fun p => p.2.primary_key) = [(k, v)]) :
    ∀ m fs, scanLoop attrs m fs none =
      .ok (m ++ attrs, fs ++ (attrs.filter (fun p => !p.2.primary_key)).map Prod.fst,
        some k) := by
  induction attrs with
  | nil => simp at h
  | cons a rest ih =>
    intro m fs
    obtain ⟨ka, va⟩ := a
    by_cases hv : va.primary_key
    · simp only [List.filter_cons, hv, if_pos, if_true] at h
      obtain ⟨h1, h2⟩ := List.cons.inj h
      simp only [Prod.mk.injEq] at h1
      simp only [scanLoop, hv, if_pos, pyOrS]
      rw [if_neg (by simp [pyOrS])]
      rw [scanLoop_some_clean rest ka (h1.1 ▸ hk) h2]
      simp [List.filter_cons, hv, List.append_assoc, h1.1]
    · simp only [List.filter_cons, hv] at h
      simp only [scanLoop, hv, Bool.false_eq_true, if_neg, if_false]
      rw [ih h]
      simp [List.filter_cons, hv, List.append_assoc]

theorem scanLoop_none_dup (attrs : List (String × Field)) (k1 k2 : String)
    (v1 v2 : Field) (t : List (String × Field)) (hk1 : k1 ≠ "")
    (h : attrs.filter (fun p => p.2.primary_key) = (k1, v1) :: (k2, v2) :: t) :
    ∀ m fs, scanLoop attrs m fs none =
      .error ("Duplicate primary key for field: " ++ k2) := by
  induction attrs with
  | nil => simp at h
  | cons a rest ih =>
    intro m fs
    obtain ⟨ka, va⟩ := a
    by_cases hv : va.primary_key
    · simp only [List.filter_cons, hv, if_pos, if_true] at h
      obtain ⟨h1, h2⟩ := List.cons.inj h
      simp only [Prod.mk.injEq] at h1
      simp only [scanLoop, hv, if_pos, pyOrS]
      rw [if_neg (by simp [pyOrS])]
      exact scanLoop_some_dup rest ka (h1.1 ▸ hk1) k2 v2 t h2 (m ++ [(ka, va)]) fs
    · simp only [List.filter_cons, hv] at h
      simp only [scanLoop, hv, Bool.false_eq_true, if_neg, if_false]
      exact ih h (m ++ [(ka, va)]) (fs ++ [ka])

end orm

namespace orm

theorem modelMeta_ok_inv (name : String) (tbl : Option String)
    (attrs : List (String × Field)) (s : Schema)
    (h : modelMeta name tbl attrs = .ok (.schema s)) :
    s.selectSql = "select `" ++ s.primaryKey ++ "`, "
      ++ strJoin ", " (s.fields.map escField) ++ " from `" ++ s.tableName ++ "`" ∧
    s.insertSql = "insert into `" ++ s.tableName ++ "` ("
      ++ strJoin ", " (s.fields.map escField) ++ ", `" ++ s.primaryKey
      ++ "`) values (" ++ create_args_string (s.fields.length + 1) ++ ")" ∧
    s.updateSql = "update `" ++ s.tableName ++ "` set "
      ++ strJoin ", " (s.fields.map (updFrag s.mappings)) ++ " where `"
      ++ s.primaryKey ++ "`=?" ∧
    s.deleteSql = "delete from `" ++ s.tableName ++ "` where `"
      ++ s.primaryKey ++ "`=?" := by
  simp only [modelMeta] at h
  split at h
  · simp at h
  · split at h
    · simp at h
    · split at h
      · simp at h
      · split at h
        · simp at h
        · simp only [Except.ok.injEq] at h
          injection h with h2
          subst h2
          refine ⟨?_, ?_, ?_, ?_⟩ <;> simp [mkSchema]

end orm

namespace orm

/-- C4: for every class other than the base `Model` that goes through the
metaclass, schema derivation fails when the declared `Field` attributes
contain zero or more than one primary-key field, and with exactly one it
records that field as the key and all other declared fields, in order, as
the non-key fields.  Attribute names are Python identifiers, hence
non-empty (`hids`). -/
theorem modelMeta_primary_key_validation (name : String) (tbl : Option String)
    (attrs : List (String × Field)) (hname : name ≠ "Model")
    (hids : ∀ p ∈ attrs, p.1 ≠ "") :
    (attrs.filter (fun p => p.2.primary_key) = [] →
      modelMeta name tbl attrs = .error "Primary key not found.") ∧
    (∀ k1 v1 k2 v2 t,
      attrs.filter (fun p => p.2.primary_key) = (k1, v1) :: (k2, v2) :: t →
      modelMeta name tbl attrs = .error ("Duplicate primary key for field: " ++ k2)) ∧
    (∀ k v, attrs.filter (fun p => p.2.primary_key) = [(k, v)] →
      modelMeta name tbl attrs = .ok (.schema (mkSchema (pyOrS tbl name) attrs
          ((attrs.filter (fun p => !p.2.primary_key)).map Prod.fst) k)) ∧
      (mkSchema (pyOrS tbl name) attrs
          ((attrs.filter (fun p => !p.2.primary_key)).map Prod.fst) k).primaryKey = k ∧
      (mkSchema (pyOrS tbl name) attrs
          ((attrs.filter (fun p => !p.2.primary_key)).map Prod.fst) k).fields =
        (attrs.filter (fun p => !p.2.primary_key)).map Prod.fst) := by
  refine ⟨?_, ?_, ?_⟩
  · intro h0
    simp only [modelMeta, if_neg hname]
    rw [scanLoop_none_clean attrs h0 [] []]
  · intro k1 v1 k2 v2 t hdup
    have hk1 : k1 ≠ "" := by
      have hmem : (k1, v1) ∈ attrs := by
        have h2 : (k1, v1) ∈ attrs.filter (fun p => p.2.primary_key) := by
          rw [hdup]; simp
        exact List.mem_of_mem_filter h2
      exact hids _ hmem
    simp only [modelMeta, if_neg hname]
    rw [scanLoop_none_dup attrs k1 k2 v1 v2 t hk1 hdup [] []]
  · intro k v hone
    have hk : k ≠ "" := by
      have hmem : (k, v) ∈ attrs := by
        have h2 : (k, v) ∈ attrs.filter (fun p => p.2.primary_key) := by
          rw [hone]; simp
        exact List.mem_of_mem_filter h2
      exact hids _ hmem
    refine ⟨?_, rfl, rfl⟩
    simp only [modelMeta, if_neg hname]
    rw [scanLoop_none_one attrs k v hk hone [] []]
    simp [hk]

/-- Witness for C4 at concrete model classes: no primary key and two
primary keys fail derivation; a single primary key yields the schema with
key `id` and non-key fields `a`, `b` in declaration order. -/
theorem modelMeta_primary_key_validation_witness :
    modelMeta "U1" none exNoPk = .error "Primary key not found." ∧
    modelMeta "U2" none exTwoPk = .error ("Duplicate primary key for field: " ++ "uid") ∧
    modelMeta "User" none exAttrs = .ok (.schema (mkSchema "User" exAttrs ["a", "b"] "id")) := by
  refine ⟨?_, ?_, ?_⟩
  · exact (modelMeta_primary_key_validation "U1" none exNoPk (by decide)
      (by decide)).1 rfl
  · exact (modelMeta_primary_key_validation "U2" none exTwoPk (by decide)
      (by decide)).2.1 "id" exId "uid" exId [] rfl
  · exact ((modelMeta_primary_key_validation "User" none exAttrs (by decide)
      (by decide)).2.2 "id" exId rfl).1

/-- C1: for every model class the metaclass accepts, the generated
`insert_sql` has the shape `insert into t (f1, ..., fn, pk) values (...)`
with the columns in declared non-key order followed by the primary key,
and contains exactly `n + 1` placeholder markers (column and table names
are identifiers, hence `?`-free). -/
theorem insert_sql_placeholders (name : String) (tbl : Option String)
    (attrs : List (String × Field)) (s : Schema)
    (hs : modelMeta name tbl attrs = .ok (.schema s))
    (ht : countQ s.tableName = 0) (hpk : countQ s.primaryKey = 0)
    (hf : ∀ f ∈ s.fields, countQ f = 0) :
    countQ s.insertSql = s.fields.length + 1 ∧
    s.insertSql = "insert into `" ++ s.tableName ++ "` ("
      ++ strJoin ", " (s.fields.map escField) ++ ", `" ++ s.primaryKey
      ++ "`) values (" ++ create_args_string (s.fields.length + 1) ++ ")" := by
  obtain ⟨_, hins, _, _⟩ := modelMeta_ok_inv name tbl attrs s hs
  refine ⟨?_, hins⟩
  have hJ : countQ (strJoin ", " (s.fields.map escField)) = 0 := by
    apply countQ_strJoin_zero
    · decide
    · intro x hx
      obtain ⟨f, hfm, rfl⟩ := List.mem_map.mp hx
      have h0 := hf f hfm
      have h1 : countQ "`" = 0 := by decide
      simp only [escField, countQ_append]
      omega
  rw [hins]
  simp only [countQ_append, hJ, countQ_create_args_string, ht, hpk]
  have c1 : countQ "insert into `" = 0 := by decide
  have c2 : countQ "` (" = 0 := by decide
  have c3 : countQ ", `" = 0 := by decide
  have c4 : countQ "`) values (" = 0 := by decide
  have c5 : countQ ")" = 0 := by decide
  omega

/-- Witness for C1 at the concrete `User` model with non-key fields
`a`, `b` and primary key `id`: three placeholders. -/
theorem insert_sql_placeholders_witness :
    countQ exSchema.insertSql = exSchema.fields.length + 1 ∧
    exSchema.insertSql = "insert into `" ++ exSchema.tableName ++ "` ("
      ++ strJoin ", " (exSchema.fields.map escField) ++ ", `" ++ exSchema.primaryKey
      ++ "`) values (" ++ create_args_string (exSchema.fields.length + 1) ++ ")" :=
  insert_sql_placeholders "User" none exAttrs exSchema rfl (by decide) (by decide)
    (by decide)

end orm

namespace orm

theorem findAllBase_ne_nil (sel : String) (w orderBy : Option String) :
    findAllBase sel w orderBy ≠ [] := by
  simp only [findAllBase]
  split <;> split <;> simp

/-- C2: `findAll` with an integer `limit` appends exactly one placeholder
and the integer to the args; with a two-element pair it appends exactly
two placeholders and both elements in order; with a string (or a tuple of
any other length) it fails with the `ValueError` before any query is
issued. -/
theorem findAll_limit_cases (sel : String) (w : Option String)
    (args : Option (List PyVal)) (orderBy : Option String)
    (s0 : String) (a0 : List PyVal)
    (hbase : findAll sel w args orderBy none = .ok (s0, a0)) :
    (∀ n : Int, findAll sel w args orderBy (some (.int n))
        = .ok (s0 ++ " limit ?", a0 ++ [.vInt n]) ∧
      countQ (s0 ++ " limit ?") = countQ s0 + 1) ∧
    (∀ x y : Int, findAll sel w args orderBy (some (.tup [x, y]))
        = .ok (s0 ++ " limit ?, ?", a0 ++ [.vInt x, .vInt y]) ∧
      countQ (s0 ++ " limit ?, ?") = countQ s0 + 2) ∧
    (∀ t : String, findAll sel w args orderBy (some (.str t))
        = .error ("Invalid limit value: " ++ t)) ∧
    (∀ l : List Int, l.length ≠ 2 → findAll sel w args orderBy (some (.tup l))
        = .error ("Invalid limit value: " ++ limitStr (.tup l))) := by
  have hb : findAll sel w args orderBy none
      = .ok (strJoin " " (findAllBase sel w orderBy), args.getD []) := rfl
  rw [hb] at hbase
  simp only [Except.ok.injEq, Prod.mk.injEq] at hbase
  obtain ⟨hs0, ha0⟩ := hbase
  have hne := findAllBase_ne_nil sel w orderBy
  have hne2 : findAllBase sel w orderBy ++ ["limit"] ≠ [] := by simp
  have hlim : strJoin " " (findAllBase sel w orderBy ++ ["limit"]) = s0 ++ " limit" := by
    rw [strJoin_append_singleton " " "limit" _ hne, hs0, String.append_assoc]
    congr 1
  refine ⟨?_, ?_, ?_, ?_⟩
  · intro n
    have e1 : findAll sel w args orderBy (some (.int n))
        = .ok (strJoin " " ((findAllBase sel w orderBy ++ ["limit"]) ++ ["?"]),
            args.getD [] ++ [.vInt n]) := rfl
    rw [strJoin_append_singleton " " "?" _ hne2, hlim, ha0] at e1
    have hstr : s0 ++ " limit" ++ " " ++ "?" = s0 ++ " limit ?" := by
      rw [String.append_assoc, String.append_assoc]
      congr 1
    rw [hstr] at e1
    refine ⟨e1, ?_⟩
    rw [countQ_append]
    have : countQ " limit ?" = 1 := by decide
    omega
  · intro x y
    have e2 : findAll sel w args orderBy (some (.tup [x, y]))
        = .ok (strJoin " " ((findAllBase sel w orderBy ++ ["limit"]) ++ ["?, ?"]),
            args.getD [] ++ [.vInt x, .vInt y]) := rfl
    rw [strJoin_append_singleton " " "?, ?" _ hne2, hlim, ha0] at e2
    have hstr : s0 ++ " limit" ++ " " ++ "?, ?" = s0 ++ " limit ?, ?" := by
      rw [String.append_assoc, String.append_assoc]
      congr 1
    rw [hstr] at e2
    refine ⟨e2, ?_⟩
    rw [countQ_append]
    have : countQ " limit ?, ?" = 2 := by decide
    omega
  · intro t
    rfl
  · intro l hlen
    have e3 : findAll sel w args orderBy (some (.tup l))
        = if l.length = 2 then
            .ok (strJoin " " ((findAllBase sel w orderBy ++ ["limit"]) ++ ["?, ?"]),
              args.getD [] ++ l.map PyVal.vInt)
          else .error ("Invalid limit value: " ++ limitStr (.tup l)) := rfl
    rw [e3, if_neg hlen]

/-- Witness for C2 at a concrete select template: `limit=5` appends one
placeholder and `5`; `limit=(10,20)` appends two placeholders and both
values; `limit="x"` is a `ValueError`. -/
theorem findAll_limit_cases_witness :
    findAll "select `id`, `a`, `b` from `User`" none none none (some (.int 5))
      = .ok ("select `id`, `a`, `b` from `User`" ++ " limit ?", [PyVal.vInt 5]) ∧
    findAll "select `id`, `a`, `b` from `User`" none none none (some (.tup [10, 20]))
      = .ok ("select `id`, `a`, `b` from `User`" ++ " limit ?, ?",
          [PyVal.vInt 10, PyVal.vInt 20]) ∧
    findAll "select `id`, `a`, `b` from `User`" none none none (some (.str "x"))
      = .error ("Invalid limit value: " ++ "x") := by
  have h := findAll_limit_cases "select `id`, `a`, `b` from `User`" none none none
    "select `id`, `a`, `b` from `User`" [] rfl
  exact ⟨(h.1 5).1, (h.2.1 10 20).1, h.2.2.1 "x"⟩

end orm

theorem lookup_cons_eq {α : Type} (d : List (String × α)) (k : String) (v : α) :
    ((k, v) :: d).lookup k = some v := by
  simp [List.lookup]

theorem lookup_cons_ne {α : Type} (d : List (String × α)) (ka k : String) (va : α)
    (h : k ≠ ka) : ((ka, va) :: d).lookup k = d.lookup k := by
  have hb : (k == ka) = false := by simp [h]
  simp [List.lookup, hb]

theorem lookup_map_update {α : Type} (k : String) (v : α) :
    ∀ (d : List (String × α)) (k2 : String),
    (d.map (fun p => if p.1 = k then (k, v) else p)).lookup k2
      = if k2 = k then Option.map (fun _ => v) (d.lookup k) else d.lookup k2 := by
  intro d
  induction d with
  | nil => intro k2; simp
  | cons a rest ih =>
    intro k2
    obtain ⟨ka, va⟩ := a
    simp only [List.map_cons]
    by_cases hak : ka = k
    · subst hak
      rw [if_pos rfl]
      by_cases h2 : k2 = ka
      · subst h2
        simp [lookup_cons_eq]
      · simp only [if_neg h2]
        rw [lookup_cons_ne _ _ _ _ h2, lookup_cons_ne _ _ _ _ h2, ih k2, if_neg h2]
    · rw [if_neg hak]
      by_cases h2 : k2 = ka
      · have hk2k : ¬ k2 = k := fun he => hak (h2.symm.trans he)
        rw [if_neg hk2k, h2, lookup_cons_eq, lookup_cons_eq]
      · rw [lookup_cons_ne _ _ _ _ h2, lookup_cons_ne _ _ _ _ h2, ih k2]
        rw [lookup_cons_ne _ _ _ _ (fun he => hak he.symm)]

theorem lookup_append_sing {α : Type} (k : String) (v : α) :
    ∀ (d : List (String × α)) (k2 : String), d.lookup k = none →
    (d ++ [(k, v)]).lookup k2 = if k2 = k then some v else d.lookup k2 := by
  intro d
  induction d with
  | nil =>
    intro k2 _
    by_cases h2 : k2 = k
    · subst h2; simp [lookup_cons_eq]
    · simp only [List.nil_append]
      rw [lookup_cons_ne _ _ _ _ h2, if_neg h2]
  | cons a rest ih =>
    intro k2 hnone
    obtain ⟨ka, va⟩ := a
    have hka : ¬ k = ka := by
      intro he
      rw [he, lookup_cons_eq] at hnone
      exact Option.noConfusion hnone
    rw [lookup_cons_ne _ _ _ _ hka] at hnone
    simp only [List.cons_append]
    by_cases h2 : k2 = ka
    · have hk2k : ¬ k2 = k := fun he => hka ((he ▸ h2).symm ▸ rfl)
      rw [if_neg hk2k, h2, lookup_cons_eq, lookup_cons_eq]
    · rw [lookup_cons_ne _ _ _ _ h2, lookup_cons_ne _ _ _ _ h2, ih k2 hnone]

theorem lookup_dictSet {α : Type} (d : List (String × α)) (k : String) (v : α)
    (k2 : String) :
    (dictSet d k v).lookup k2 = if k2 = k then some v else d.lookup k2 := by
  unfold dictSet
  by_cases hs : (d.lookup k).isSome
  · rw [if_pos hs, lookup_map_update]
    by_cases h2 : k2 = k
    · obtain ⟨w, hw⟩ := Option.isSome_iff_exists.mp hs
      simp [h2, hw]
    · simp [h2]
  · rw [if_neg hs]
    exact lookup_append_sing k v d k2 (Option.not_isSome_iff_eq_none.mp hs)

namespace orm

theorem getValue_after_gvod (m : List (String × Field)) (rec : Record)
    (k f : String) (hne : f ≠ k) :
    getValue (getValueOrDefault m rec k).2 f = getValue rec f := by
  unfold getValueOrDefault
  split
  · split
    · simp [getValue, lookup_dictSet, hne]
    · rfl
  · rfl

theorem saveArgsAux_length (m : List (String × Field)) :
    ∀ (fields : List String) (rec : Record),
    (saveArgsAux m fields rec).1.length = fields.length := by
  intro fields
  induction fields with
  | nil => intro rec; rfl
  | cons f fs ih =>
    intro rec
    simp only [saveArgsAux, List.length_cons]
    rw [ih]

theorem saveArgsAux_default_at (m : List (String × Field)) (f : String)
    (fld : Field) (d : FieldDefault)
    (hm : m.lookup f = some fld) (hd : fld.default = some d) :
    ∀ (pre : List String) (post : List String) (rec : Record),
      (∀ k ∈ pre, f ≠ k) → getValue rec f = .vNone →
      (saveArgsAux m (pre ++ f :: post) rec).1[pre.length]? = some (evalDefault d) := by
  intro pre
  induction pre with
  | nil =>
    intro post rec _ hunset
    simp only [List.nil_append, saveArgsAux, List.length_nil]
    have he : (getValueOrDefault m rec f).1 = evalDefault d := by
      unfold getValueOrDefault
      rw [hunset]
      simp [lookupField, hm, hd]
    simp [he]
  | cons k pre2 ih =>
    intro post rec hpre hunset
    have hne : f ≠ k := hpre k (by simp)
    have hunset2 : getValue (getValueOrDefault m rec k).2 f = .vNone := by
      rw [getValue_after_gvod m rec k f hne]
      exact hunset
    have hpre2 : ∀ k2 ∈ pre2, f ≠ k2 := fun k2 hk2 => hpre k2 (by simp [hk2])
    simp only [List.cons_append, saveArgsAux, List.length_cons,
      List.getElem?_cons_succ]
    exact ih post _ hpre2 hunset2

/-- C3: for a record whose non-key field `f` is unset while its `Field`
declares a default, `save` gathers the default value (invoking it when it
is callable) at `f`'s position among the insert arguments, while `update`
gathers the `None` representation at the same position — the intentional
save/update asymmetry. -/
theorem save_update_default_asymmetry (s : Schema) (rec : Record)
    (pre post : List String) (f : String) (fld : Field) (d : FieldDefault)
    (hfields : s.fields = pre ++ f :: post)
    (hpre : ∀ k ∈ pre, f ≠ k)
    (hmap : s.mappings.lookup f = some fld)
    (hdef : fld.default = some d)
    (hunset : getValue rec f = .vNone) :
    (saveArgs s rec)[pre.length]? = some (evalDefault d) ∧
    (updateArgs s rec)[pre.length]? = some PyVal.vNone := by
  constructor
  · simp only [saveArgs]
    rw [hfields]
    have hi : pre.length < (saveArgsAux s.mappings (pre ++ f :: post) rec).1.length := by
      rw [saveArgsAux_length]
      simp
    rw [List.getElem?_append, if_pos hi]
    exact saveArgsAux_default_at s.mappings f fld d hmap hdef pre post rec hpre hunset
  · simp only [updateArgs]
    rw [hfields, List.map_append, List.map_cons]
    have hi : pre.length < (pre.map (getValue rec) ++
        (getValue rec f :: post.map (getValue rec))).length := by
      simp
    rw [List.getElem?_append, if_pos hi]
    rw [List.getElem?_append, if_neg (by simp)]
    simp [hunset]

/-- Witness for C3 at the `Person` model: the unset `gen` field, whose
default is a callable producing `"gen"`, is saved as `"gen"` but updated
as `None`. -/
theorem save_update_default_asymmetry_witness :
    (saveArgs exSchema2 exRec)[(1 : Nat)]? = some (PyVal.vStr "gen") ∧
    (updateArgs exSchema2 exRec)[(1 : Nat)]? = some PyVal.vNone :=
  save_update_default_asymmetry exSchema2 exRec ["email"] [] "gen" exGen
    (.func fun _ => .vStr "gen") rfl (by decide) rfl rfl rfl

/-- C5: `save`, `update` and `remove` complete normally for every
affected-row count the executor reports (their result type has no error
channel, matching the source, which only logs); the warning is emitted
exactly when the count differs from 1, and in particular a count of 1
emits no warning. -/
theorem crud_rowcount_warning (s : Schema) (rec : Record)
    (execute : String → List PyVal → Int) :
    ((Model.save s rec execute).warned = true ↔
      execute s.insertSql (saveArgs s rec) ≠ 1) ∧
    ((Model.update s rec execute).warned = true ↔
      execute s.updateSql (updateArgs s rec) ≠ 1) ∧
    ((Model.remove s rec execute).warned = true ↔
      execute s.deleteSql [getValue rec s.primaryKey] ≠ 1) := by
  refine ⟨?_, ?_, ?_⟩ <;>
    simp [Model.save, Model.update, Model.remove, bne_iff_ne]

/-- C9 counterexample: the claim says a supplied `size` fetches exactly
`size` rows, but `select` over a one-row result with `size = 0` fetches
one row (Python `if size:` treats `0` as absent), and with `size = 2` it
fetches only the one available row. -/
theorem select_size_counterexample :
    (select [(7 : Nat)] "a" none (some 0)).rows.length ≠ 0 ∧
    (select [(7 : Nat)] "a" none (some 2)).rows.length ≠ 2 := by
  constructor <;> decide

/-- C9 (amended): a supplied non-zero `size` fetches the first
`min size total` rows (exactly `size` when enough rows are available);
an absent or zero `size` fetches all rows; in all cases the placeholder
marker is translated to the driver marker, the arguments are forwarded
(`None` becoming the empty tuple), and the connection is released. -/
theorem select_fetch_amended {α : Type} (db : List α) (sql : String)
    (args : Option (List PyVal)) :
    (∀ n : Nat, n ≠ 0 → (select db sql args (some n)).rows = db.take n ∧
      (select db sql args (some n)).rows.length = min n db.length) ∧
    (select db sql args none).rows = db ∧
    (select db sql args (some 0)).rows = db ∧
    (∀ size : Option Nat,
      (select db sql args size).executedSql = sql.replace "?" "%s" ∧
      (select db sql args size).executedArgs = args.getD [] ∧
      (select db sql args size).connReleased = true) := by
  refine ⟨?_, rfl, rfl, ?_⟩
  · intro n hn
    refine ⟨?_, ?_⟩
    · simp [select, hn]
    · simp [select, hn]
  · intro size
    exact ⟨rfl, rfl, rfl⟩

/-- Witness for the amended C9: `size = 2` over three rows fetches the
first two. -/
theorem select_fetch_amended_witness :
    (select [10, 20, 30] "a=?" none (some 2)).rows = [10, 20] ∧
    (select [10, 20, 30] "a=?" none (some 2)).rows.length = min 2 3 := by
  have h := (select_fetch_amended [10, 20, 30] "a=?" none).1 2 (by decide)
  exact ⟨h.1, h.2⟩

end orm

theorem string_data_inj {c f : String} (h : c.data = f.data) : c = f := by
  cases c; cases f; exact congrArg String.mk h

theorem tick_frag_injective (c f : String)
    (h : "`" ++ c ++ "`=?" = "`" ++ f ++ "`=?") : c = f := by
  have hd : ("`" ++ c ++ "`=?").data = ("`" ++ f ++ "`=?").data :=
    congrArg String.data h
  simp only [String.data_append] at hd
  exact string_data_inj (List.append_cancel_left (List.append_cancel_right hd))

namespace orm

/-- C10: for a non-key field declared with an explicit column name that
differs from its attribute name, the update template's set-clause
fragment uses the explicit name while the insert and select templates
render the attribute name — the three templates name such a column
inconsistently. -/
theorem update_sql_explicit_name_inconsistency (name : String) (tbl : Option String)
    (attrs : List (String × Field)) (s : Schema)
    (hs : modelMeta name tbl attrs = .ok (.schema s))
    (f c : String) (fld : Field)
    (hf : f ∈ s.fields)
    (hlk : s.mappings.lookup f = some fld)
    (hname : fld.name = some c)
    (hc : c ≠ "") (hne : c ≠ f) :
    updFrag s.mappings f = "`" ++ c ++ "`=?" ∧
    escField f = "`" ++ f ++ "`" ∧
    updFrag s.mappings f ≠ "`" ++ f ++ "`=?" ∧
    s.updateSql = "update `" ++ s.tableName ++ "` set "
      ++ strJoin ", " (s.fields.map (updFrag s.mappings)) ++ " where `"
      ++ s.primaryKey ++ "`=?" ∧
    s.insertSql = "insert into `" ++ s.tableName ++ "` ("
      ++ strJoin ", " (s.fields.map escField) ++ ", `" ++ s.primaryKey
      ++ "`) values (" ++ create_args_string (s.fields.length + 1) ++ ")" ∧
    s.selectSql = "select `" ++ s.primaryKey ++ "`, "
      ++ strJoin ", " (s.fields.map escField) ++ " from `" ++ s.tableName ++ "`" := by
  obtain ⟨hsel, hins, hupd, _⟩ := modelMeta_ok_inv name tbl attrs s hs
  have hfrag : updFrag s.mappings f = "`" ++ c ++ "`=?" := by
    unfold updFrag lookupField
    rw [hlk]
    simp [pyOrS, hname, hc]
  refine ⟨hfrag, rfl, ?_, hupd, hins, hsel⟩
  rw [hfrag]
  intro h
  exact hne (tick_frag_injective c f h)

/-- Witness for C10 at the `Person` model, whose `email` attribute has
explicit column name `mail`: the update fragment is for `mail`, the
insert/select column for `email`. -/
theorem update_sql_explicit_name_inconsistency_witness :
    updFrag exSchema2.mappings "email" = "`" ++ "mail" ++ "`=?" ∧
    escField "email" = "`" ++ "email" ++ "`" ∧
    updFrag exSchema2.mappings "email" ≠ "`" ++ "email" ++ "`=?" ∧
    exSchema2.updateSql = "update `" ++ exSchema2.tableName ++ "` set "
      ++ strJoin ", " (exSchema2.fields.map (updFrag exSchema2.mappings)) ++ " where `"
      ++ exSchema2.primaryKey ++ "`=?" ∧
    exSchema2.insertSql = "insert into `" ++ exSchema2.tableName ++ "` ("
      ++ strJoin ", " (exSchema2.fields.map escField) ++ ", `" ++ exSchema2.primaryKey
      ++ "`) values (" ++ create_args_string (exSchema2.fields.length + 1) ++ ")" ∧
    exSchema2.selectSql = "select `" ++ exSchema2.primaryKey ++ "`, "
      ++ strJoin ", " (exSchema2.fields.map escField) ++ " from `"
      ++ exSchema2.tableName ++ "`" :=
  update_sql_explicit_name_inconsistency "Person" none exAttrs2 exSchema2 rfl
    "email" "mail" exMail (by decide) rfl rfl (by decide) (by decide)

end orm

namespace lxfweb

theorem hasRequestLoop_skip (l1 : List Param) (h : ∀ p ∈ l1, p.name ≠ "request") :
    ∀ rest : List Param, hasRequestLoop (l1 ++ rest) false = hasRequestLoop rest false := by
  induction l1 with
  | nil => intro rest; rfl
  | cons p l1t ih =>
    intro rest
    have hp : p.name ≠ "request" := h p (by simp)
    have ht : ∀ q ∈ l1t, q.name ≠ "request" := fun q hq => h q (by simp [hq])
    simp only [List.cons_append, hasRequestLoop, if_neg hp]
    rw [if_neg (by simp)]
    exact ih ht rest

theorem hasRequestLoop_found_all (l2 : List Param)
    (hall : ∀ p ∈ l2, p.kind = .varPositional ∨ p.kind = .keywordOnly
      ∨ p.kind = .varKeyword) :
    hasRequestLoop l2 true = .ok true := by
  induction l2 with
  | nil => rfl
  | cons p rest ih =>
    have hrest : ∀ q ∈ rest, q.kind = .varPositional ∨ q.kind = .keywordOnly
        ∨ q.kind = .varKeyword := fun q hq => hall q (by simp [hq])
    have hp := hall p (by simp)
    by_cases hn : p.name = "request"
    · simp only [hasRequestLoop, if_pos hn]
      exact ih hrest
    · simp only [hasRequestLoop, if_neg hn]
      rw [if_neg (by rcases hp with h | h | h <;> simp [h])]
      exact ih hrest

theorem hasRequestLoop_found_bad (l2 : List Param)
    (hno : ∀ p ∈ l2, p.name ≠ "request")
    (hbad : ∃ p ∈ l2, p.kind = .positionalOnly ∨ p.kind = .positionalOrKeyword) :
    hasRequestLoop l2 true
      = .error "request parameter must be the last named parameter in function" := by
  induction l2 with
  | nil => obtain ⟨p, hp, _⟩ := hbad; simp at hp
  | cons p rest ih =>
    have hp : p.name ≠ "request" := hno p (by simp)
    have hrest : ∀ q ∈ rest, q.name ≠ "request" := fun q hq => hno q (by simp [hq])
    simp only [hasRequestLoop, if_neg hp]
    by_cases hbadp : p.kind = .positionalOnly ∨ p.kind = .positionalOrKeyword
    · rw [if_pos ⟨trivial, by rcases hbadp with h | h <;> simp [h]⟩]
    · rw [if_neg (by
        intro hcond
        rcases hcond with ⟨_, h1, h2, h3⟩
        cases hk : p.kind <;> simp [hk] at h1 h2 h3 hbadp)]
      apply ih hrest
      obtain ⟨q, hq, hqk⟩ := hbad
      rcases List.mem_cons.mp hq with he | hm
      · exact absurd (he ▸ hqk) hbadp
      · exact ⟨q, hm, hqk⟩

/-- C6: a handler with a parameter named `request` registers successfully
when every later parameter is variadic-positional, keyword-only or
variadic-keyword (so `request` before a variadic-keyword parameter is
accepted), and registration fails with the `ValueError` when any later
parameter is a plain positional one.  The inspection happens inside
`RequestHandler.init`, i.e. once at registration; the per-call `handle`
only consumes the stored flags. -/
theorem has_request_arg_registration (l1 l2 : List Param) (q : Param)
    (hq : q.name = "request")
    (h1 : ∀ p ∈ l1, p.name ≠ "request") (h2 : ∀ p ∈ l2, p.name ≠ "request") :
    ((∀ p ∈ l2, p.kind = .varPositional ∨ p.kind = .keywordOnly
        ∨ p.kind = .varKeyword) →
      RequestHandler.init (l1 ++ q :: l2) = .ok
        ⟨true, has_var_kw_arg (l1 ++ q :: l2), has_named_kw_args (l1 ++ q :: l2),
          get_named_kw_args (l1 ++ q :: l2), get_required_kw_args (l1 ++ q :: l2)⟩) ∧
    ((∃ p ∈ l2, p.kind = .positionalOnly ∨ p.kind = .positionalOrKeyword) →
      RequestHandler.init (l1 ++ q :: l2)
        = .error "request parameter must be the last named parameter in function") := by
  constructor
  · intro hall
    unfold RequestHandler.init
    rw [hasRequestLoop_skip l1 h1 (q :: l2)]
    simp only [hasRequestLoop, if_pos hq]
    rw [hasRequestLoop_found_all l2 hall]
  · intro hbad
    unfold RequestHandler.init
    rw [hasRequestLoop_skip l1 h1 (q :: l2)]
    simp only [hasRequestLoop, if_pos hq]
    rw [hasRequestLoop_found_bad l2 h2 hbad]

/-- Witness for C6: `request` immediately before a variadic-keyword
parameter registers (with the flag set); `request` before a plain
positional parameter aborts registration. -/
theorem has_request_arg_registration_witness :
    RequestHandler.init [⟨"request", .positionalOrKeyword, false⟩,
        ⟨"kw", .varKeyword, false⟩]
      = .ok ⟨true, true, false, [], []⟩ ∧
    RequestHandler.init [⟨"request", .positionalOrKeyword, false⟩,
        ⟨"x", .positionalOrKeyword, false⟩]
      = .error "request parameter must be the last named parameter in function" := by
  constructor
  · exact (has_request_arg_registration [] [⟨"kw", .varKeyword, false⟩]
      ⟨"request", .positionalOrKeyword, false⟩ rfl (by decide) (by decide)).1
      (by decide)
  · exact (has_request_arg_registration [] [⟨"x", .positionalOrKeyword, false⟩]
      ⟨"request", .positionalOrKeyword, false⟩ rfl (by decide) (by decide)).2
      ⟨⟨"x", .positionalOrKeyword, false⟩, by decide, by decide⟩

end lxfweb

namespace lxfweb

/-- C8: for a POST dispatched to a handler that needs keyword arguments,
a falsy content type is rejected with a 400-class response; an
`application/json` body that is not an object is rejected; url-encoded
and multipart bodies become the flat keyword mapping the rest of the
pipeline consumes; and any other content type is rejected with a
400-class response citing the unsupported content type, without invoking
the handler. -/
theorem post_content_type_dispatch (h : RequestHandler) (r : Request)
    (hneeds : (h.has_var_kw_arg || h.has_named_kw_args
      || !h.required_kw_args.isEmpty) = true)
    (hpost : r.method = "POST") :
    (r.contentType = "" → handle h r = .badRequest "Missing Content-Type.") ∧
    (r.contentType ≠ "" →
      pyStartswith (pyLower r.contentType) "application/json" = true →
      r.jsonBody = .jother →
      handle h r = .badRequest "JSON body must be object.") ∧
    (r.contentType ≠ "" →
      pyStartswith (pyLower r.contentType) "application/json" = false →
      (pyStartswith (pyLower r.contentType) "application/x-www-form-urlencoded"
        || pyStartswith (pyLower r.contentType) "multipart/form-data") = true →
      handle h r = finishKw h r (some (r.postBody.map fun p => (p.1, Val.str p.2)))) ∧
    (r.contentType ≠ "" →
      pyStartswith (pyLower r.contentType) "application/json" = false →
      (pyStartswith (pyLower r.contentType) "application/x-www-form-urlencoded"
        || pyStartswith (pyLower r.contentType) "multipart/form-data") = false →
      handle h r = .badRequest ("Unsupported Content-Type: " ++ r.contentType) ∧
      ∀ kw, handle h r ≠ .invoke kw) := by
  refine ⟨?_, ?_, ?_, ?_⟩
  · intro hct
    have hg : gatherKw h r = .error "Missing Content-Type." := by
      simp only [gatherKw]
      rw [if_pos hneeds, if_pos hpost, if_pos hct]
    unfold handle
    rw [hg]
  · intro hct hjson hj
    have hg : gatherKw h r = .error "JSON body must be object." := by
      simp only [gatherKw]
      rw [if_pos hneeds, if_pos hpost, if_neg hct, if_pos hjson, hj]
    unfold handle
    rw [hg]
  · intro hct hjson hform
    have hg : gatherKw h r
        = .ok (some (r.postBody.map fun p => (p.1, Val.str p.2))) := by
      simp only [gatherKw]
      rw [if_pos hneeds, if_pos hpost, if_neg hct,
        if_neg (by rw [hjson]; exact Bool.false_ne_true), if_pos hform]
    unfold handle
    rw [hg]
  · intro hct hjson hform
    have hg : gatherKw h r
        = .error ("Unsupported Content-Type: " ++ r.contentType) := by
      simp only [gatherKw]
      rw [if_pos hneeds, if_pos hpost, if_neg hct,
        if_neg (by rw [hjson]; exact Bool.false_ne_true),
        if_neg (by rw [hform]; exact Bool.false_ne_true)]
    have he : handle h r = .badRequest ("Unsupported Content-Type: " ++ r.contentType) := by
      unfold handle
      rw [hg]
    exact ⟨he, fun kw hinv => by rw [he] at hinv; exact Outcome.noConfusion hinv⟩

/-- Witness for C8 at a concrete handler needing keyword arguments:
missing content type, non-object JSON, a url-encoded body becoming the
keyword mapping, and a `text/plain` rejection. -/
theorem post_content_type_dispatch_witness :
    handle exHandler (exPost "" .jother) = .badRequest "Missing Content-Type." ∧
    handle exHandler (exPost "application/json" .jother)
      = .badRequest "JSON body must be object." ∧
    handle exHandler (exPost "application/x-www-form-urlencoded" .jother)
      = finishKw exHandler (exPost "application/x-www-form-urlencoded" .jother)
          (some [("name", Val.str "Bob")]) ∧
    handle exHandler (exPost "text/plain" .jother)
      = .badRequest ("Unsupported Content-Type: " ++ "text/plain") := by
  refine ⟨?_, ?_, ?_, ?_⟩
  · exact (post_content_type_dispatch exHandler (exPost "" .jother)
      (by decide) rfl).1 rfl
  · exact (post_content_type_dispatch exHandler (exPost "application/json" .jother)
      (by decide) rfl).2.1 (by decide) (by decide) rfl
  · exact (post_content_type_dispatch exHandler
      (exPost "application/x-www-form-urlencoded" .jother)
      (by decide) rfl).2.2.1 (by decide) (by decide) (by decide)
  · exact ((post_content_type_dispatch exHandler (exPost "text/plain" .jother)
      (by decide) rfl).2.2.2 (by decide) (by decide) (by decide)).1

end lxfweb

theorem lookup_eq_none_forall {α : Type} :
    ∀ (l : List (String × α)) (k : String), l.lookup k = none →
      ∀ p ∈ l, p.1 ≠ k := by
  intro l
  induction l with
  | nil => intro k _ p hp; simp at hp
  | cons a rest ih =>
    intro k hl p hp
    obtain ⟨ka, va⟩ := a
    by_cases hk : k = ka
    · rw [hk, lookup_cons_eq] at hl
      exact Option.noConfusion hl
    · rw [lookup_cons_ne _ _ _ _ hk] at hl
      rcases List.mem_cons.mp hp with he | hm
      · rw [he]
        exact fun hc => hk hc.symm
      · exact ih k hl p hm

namespace lxfweb

theorem mergeMatchInfo_lookup_nmem :
    ∀ (mi : List (String × String)) (kw : Kw) (k : String),
      (∀ p ∈ mi, p.1 ≠ k) →
      (mergeMatchInfo mi kw).lookup k = kw.lookup k := by
  intro mi
  induction mi with
  | nil => intro kw k _; rfl
  | cons p rest ih =>
    intro kw k hk
    simp only [mergeMatchInfo, List.foldl_cons]
    rw [show rest.foldl (fun d q => dictSet d q.1 (Val.str q.2))
        (dictSet kw p.1 (Val.str p.2))
      = mergeMatchInfo rest (dictSet kw p.1 (Val.str p.2)) from rfl]
    rw [ih (dictSet kw p.1 (Val.str p.2)) k (fun q hq => hk q (by simp [hq]))]
    rw [lookup_dictSet]
    exact if_neg (fun he => hk p (by simp) he.symm)

theorem mergeMatchInfo_lookup_mem :
    ∀ (mi : List (String × String)) (kw : Kw) (k : String) (w : String),
      (mi.map Prod.fst).Nodup → mi.lookup k = some w →
      (mergeMatchInfo mi kw).lookup k = some (Val.str w) := by
  intro mi
  induction mi with
  | nil => intro kw k w _ hl; simp at hl
  | cons p rest ih =>
    intro kw k w hnd hl
    obtain ⟨ka, va⟩ := p
    simp only [List.map_cons, List.nodup_cons] at hnd
    simp only [mergeMatchInfo, List.foldl_cons]
    by_cases hk : k = ka
    · subst hk
      rw [lookup_cons_eq] at hl
      injection hl with hw
      have hnm : ∀ q ∈ rest, q.1 ≠ k := by
        intro q hq hc
        exact hnd.1 (hc ▸ List.mem_map_of_mem Prod.fst hq)
      rw [show rest.foldl (fun d q => dictSet d q.1 (Val.str q.2))
          (dictSet kw k (Val.str va))
        = mergeMatchInfo rest (dictSet kw k (Val.str va)) from rfl]
      rw [mergeMatchInfo_lookup_nmem rest _ k hnm, lookup_dictSet, if_pos rfl, hw]
    · rw [lookup_cons_ne _ _ _ _ hk] at hl
      exact ih (dictSet kw ka (Val.str va)) k w hnd.2 hl

theorem namedFilter_lookup (kw0 : Kw) :
    ∀ (names : List String) (k : String),
    (namedFilter names kw0).lookup k = if k ∈ names then kw0.lookup k else none := by
  intro names
  induction names with
  | nil => intro k; simp [namedFilter]
  | cons n rest ih =>
    intro k
    simp only [namedFilter, List.filterMap_cons]
    cases hn : kw0.lookup n with
    | none =>
      simp only [Option.map_none']
      rw [show (rest.filterMap fun m => (kw0.lookup m).map fun v => (m, v))
        = namedFilter rest kw0 from rfl, ih k]
      by_cases hk : k = n
      · subst hk
        by_cases hm : k ∈ rest <;> simp [hm, hn]
      · simp [hk]
    | some v =>
      simp only [Option.map_some']
      by_cases hk : k = n
      · subst hk
        rw [lookup_cons_eq]
        simp [hn]
      · rw [lookup_cons_ne _ _ _ _ hk]
        rw [show (rest.filterMap fun m => (kw0.lookup m).map fun v => (m, v))
          = namedFilter rest kw0 from rfl, ih k]
        simp [hk]

end lxfweb

namespace lxfweb

/-- C7: for a GET request with a non-empty query string dispatched to a
handler with named keyword-only parameters, no variadic-keyword and no
`request` parameter, the assembled mapping is the query pairs filtered to
the named set (first query value per key) with the path parameters merged
last; its lookups give exactly: the path value when the key is
path-matched, else the first query value when the key is in the named
set, else nothing. -/
theorem get_query_binding (h : RequestHandler) (r : Request)
    (hget : r.method = "GET") (hqs : r.queryString ≠ "")
    (hvar : h.has_var_kw_arg = false)
    (hnamed : h.has_named_kw_args = true)
    (hnonempty : h.named_kw_args ≠ [])
    (hreq : h.has_request_arg = false)
    (hmi : (r.matchInfo.map Prod.fst).Nodup)
    (hrequired : ∀ n ∈ h.required_kw_args,
      ((mergeMatchInfo r.matchInfo
        (namedFilter h.named_kw_args (queryKw r))).lookup n).isSome = true) :
    handle h r = .invoke (mergeMatchInfo r.matchInfo
      (namedFilter h.named_kw_args (queryKw r))) ∧
    ∀ k, (mergeMatchInfo r.matchInfo
        (namedFilter h.named_kw_args (queryKw r))).lookup k
      = match r.matchInfo.lookup k with
        | some w => some (Val.str w)
        | none => if k ∈ h.named_kw_args then (queryKw r).lookup k else none := by
  constructor
  · have hneeds : (h.has_var_kw_arg || h.has_named_kw_args
        || !h.required_kw_args.isEmpty) = true := by
      rw [hnamed]; simp
    have hnp : ¬(r.method = "POST") := by rw [hget]; decide
    have hg : gatherKw h r = .ok (some (queryKw r)) := by
      simp only [gatherKw]
      rw [if_pos hneeds, if_neg hnp, if_pos hget, if_pos hqs]
    have hfin : finishKw h r (some (queryKw r)) = .invoke (mergeMatchInfo r.matchInfo
        (namedFilter h.named_kw_args (queryKw r))) := by
      have hfind : h.required_kw_args.find?
          (fun n => ((mergeMatchInfo r.matchInfo
            (namedFilter h.named_kw_args (queryKw r))).lookup n).isNone) = none := by
        rw [List.find?_eq_none]
        intro n hn hcon
        have h1 := hrequired n hn
        rw [Option.isNone_iff_eq_none] at hcon
        rw [hcon] at h1
        exact Bool.noConfusion h1
      simp only [finishKw]
      rw [if_pos (show (!h.has_var_kw_arg && !h.named_kw_args.isEmpty) = true by
        rw [hvar]; simp [hnonempty])]
      rw [if_neg (show ¬(h.has_request_arg = true) by
        rw [hreq]; exact Bool.false_ne_true)]
      rw [hfind]
    unfold handle
    rw [hg]
    exact hfin
  · intro k
    cases hmk : r.matchInfo.lookup k with
    | some w =>
      rw [mergeMatchInfo_lookup_mem r.matchInfo
        (namedFilter h.named_kw_args (queryKw r)) k w hmi hmk]
    | none =>
      have hnm := lookup_eq_none_forall r.matchInfo k hmk
      rw [mergeMatchInfo_lookup_nmem r.matchInfo
        (namedFilter h.named_kw_args (queryKw r)) k hnm,
        namedFilter_lookup (queryKw r) h.named_kw_args k]

/-- Witness for C7 at the spec's example: named set `name`, `email`,
query `name=Bob&age=30`, no path parameters — the binding is exactly
`name = Bob` (no `age`, no `email`). -/
theorem get_query_binding_witness :
    handle exHandler exGet
      = .invoke (mergeMatchInfo exGet.matchInfo
          (namedFilter exHandler.named_kw_args (queryKw exGet))) ∧
    mergeMatchInfo exGet.matchInfo
        (namedFilter exHandler.named_kw_args (queryKw exGet))
      = [("name", Val.str "Bob")] := by
  refine ⟨(get_query_binding exHandler exGet rfl (by decide) rfl rfl (by decide)
    rfl (by decide) (by decide)).1, by decide⟩

end lxfweb
